import Mathlib

/-!
Shallow embedding of the slab-generation pipeline of surfaxe
(src/surfaxe/generation.py): the functions get_one_hkl_slabs,
get_all_slabs and oxidation_states.  External collaborators (the pymatgen
structure loader, the slab generator, the polarity / symmetry / equality
predicates and the atom count) are parameters of the embedding.  Slabs are
an abstract type; thickness and vacuum values are naturals.  Python lists
are Lean lists, Python warnings are values of an explicit warning type,
and the only failure modelled locally (a raised ValueError) is an
Except.error result.
-/

namespace Surfaxe

/-! ### Argument validation (generation.py lines 91-94 and 248-251) -/

/-- Python truthiness of the optional structure-filename argument:
None and the empty string are falsy. -/
def truthyStr : Option String → Bool
  | none => false
  | some s => !s.isEmpty

/-- Python truthiness of an optional list argument: None and the empty
list are falsy. -/
def truthyList : Option (List Nat) → Bool
  | none => false
  | some l => !l.isEmpty

/-- Python truthiness of the optional Miller-index tuple: None and the
empty tuple are falsy. -/
def truthyHkl : Option (List Int) → Bool
  | none => false
  | some l => !l.isEmpty

/-- Python truthiness of the optional integer max_index argument: None
and 0 are falsy. -/
def truthyNat : Option Nat → Bool
  | none => false
  | some n => n != 0

/-- Embeds the validation of get_one_hkl_slabs, lines 92-94:
raise ValueError when not any([structure, hkl, thicknesses, vacuums]),
that is when none of the four arguments is truthy. -/
def check_args_one (structure_arg : Option String) (hkl : Option (List Int))
    (thicknesses vacuums : Option (List Nat)) : Except String Unit :=
  if !(truthyStr structure_arg || truthyHkl hkl ||
       truthyList thicknesses || truthyList vacuums) then
    Except.error "One or more of the required arguments (structure, hkl, thicknesses, vacuums) were not supplied."
  else
    Except.ok ()

/-- Embeds the validation of get_all_slabs, lines 249-251:
raise ValueError when not any([structure, max_index, thicknesses,
vacuums]). -/
def check_args_all (structure_arg : Option String) (max_index : Option Nat)
    (thicknesses vacuums : Option (List Nat)) : Except String Unit :=
  if !(truthyStr structure_arg || truthyNat max_index ||
       truthyList thicknesses || truthyList vacuums) then
    Except.error "One or more of the required arguments (structure, max_index, thicknesses, vacuums) were not supplied."
  else
    Except.ok ()

/-! ### Candidate records (the dicts appended to the provisional list) -/

/-- One provisional candidate: the dict built at lines 114-118 / 123-127
(and 273-277 / 282-286), carrying the hkl string, the slab and vacuum
thicknesses, the index within the generation batch and the slab itself. -/
structure SlabRec (α : Type) where
  hkl : String
  slab_t : Nat
  vac_t : Nat
  s_index : Nat
  slab : α
  deriving DecidableEq, Repr

/-! ### Selection policy (lines 110-127 and 269-286) -/

/-- Selection test of get_one_hkl_slabs: with is_symmetric the slab must
satisfy slab.is_symmetric() and not slab.is_polar(); otherwise only
not slab.is_polar(). -/
def keep_one (is_symmetric : Bool) (is_polar is_symm : α → Bool) (s : α) : Bool :=
  if is_symmetric then is_symm s && !is_polar s else !is_polar s

/-- Selection test of get_all_slabs: with is_symmetric the slab must
satisfy (slab.is_polar() == False) and (slab.is_symmetric() == True);
otherwise only not slab.is_polar(). -/
def keep_all (is_symmetric : Bool) (is_polar is_symm : α → Bool) (s : α) : Bool :=
  if is_symmetric then (is_polar s == false) && (is_symm s == true) else !is_polar s

/-! ### Enumeration (lines 103-127 and 260-286) -/

/-- The inner loop for i, slab in enumerate(slabs): the index counter i
advances on every slab, kept or not, and a record is appended exactly for
the kept slabs. -/
def collect_batch (hklStr : α → String) (keep : α → Bool) (t v : Nat) :
    Nat → List α → List (SlabRec α)
  | _, [] => []
  | i, s :: rest =>
    if keep s then
      ⟨hklStr s, t, v, i, s⟩ :: collect_batch hklStr keep t v (i + 1) rest
    else
      collect_batch hklStr keep t v (i + 1) rest

/-- The provisional list: outer loop over vacuums, inner loop over
thicknesses, appending the records of each generation batch in order. -/
def provisional_grid (hklStr : α → String) (keep : α → Bool)
    (gen : Nat → Nat → List α) (vacuums thicknesses : List Nat) :
    List (SlabRec α) :=
  vacuums.flatMap fun vacuum =>
    thicknesses.flatMap fun thickness =>
      collect_batch hklStr keep thickness vacuum 0 (gen thickness vacuum)

/-- The provisional list of get_one_hkl_slabs (lines 103-127), with the
slabs of SlabGenerator(...).get_slabs() abstracted as gen thickness
vacuum. -/
def provisional_one (hklStr : α → String) (is_polar is_symm : α → Bool)
    (is_symmetric : Bool) (gen : Nat → Nat → List α)
    (vacuums thicknesses : List Nat) : List (SlabRec α) :=
  provisional_grid hklStr (keep_one is_symmetric is_polar is_symm) gen vacuums thicknesses

/-- The provisional list of get_all_slabs (lines 260-286), with the slabs
of generate_all_slabs(...) abstracted as gen thickness vacuum. -/
def provisional_all (hklStr : α → String) (is_polar is_symm : α → Bool)
    (is_symmetric : Bool) (gen : Nat → Nat → List α)
    (vacuums thicknesses : List Nat) : List (SlabRec α) :=
  provisional_grid hklStr (keep_all is_symmetric is_polar is_symm) gen vacuums thicknesses

/-! ### Deduplication (lines 129-145 and 288-308) -/

/-- The identifier string formatted at lines 139-140 and 144-145:
hkl_slabt_vact_sindex. -/
def slab_label (r : SlabRec α) : String :=
  r.hkl ++ "_" ++ toString r.slab_t ++ "_" ++ toString r.vac_t ++ "_" ++
    toString r.s_index

/-- Python membership x in l for the slab lists: some element of l
compares equal to x under the external equality predicate (CPython
compares element == x). -/
def list_contains (eq : α → α → Bool) (l : List α) (x : α) : Bool :=
  l.any fun y => eq y x

/-- The four accumulators of the dedup pass, initialised empty at line
130 / 289. -/
structure DedupState (α : Type) where
  unique_list : List α
  unique_list_of_dicts : List (SlabRec α)
  repeats : List String
  large : List String
  deriving DecidableEq, Repr

/-- The empty starting state of the dedup pass. -/
def dedupInit : DedupState α := ⟨[], [], [], []⟩

/-- One iteration of the dedup loop (lines 132-145): a candidate whose
slab is not in unique_list is appended to unique_list and
unique_list_of_dicts, and its label to large when its atom count exceeds
max_size; otherwise its label is appended to the repeat list. -/
def dedup_step (eq : α → α → Bool) (atoms : α → Nat) (max_size : Nat)
    (st : DedupState α) (r : SlabRec α) : DedupState α :=
  if list_contains eq st.unique_list r.slab then
    { st with repeats := st.repeats ++ [slab_label r] }
  else
    { unique_list := st.unique_list ++ [r.slab]
      unique_list_of_dicts := st.unique_list_of_dicts ++ [r]
      repeats := st.repeats
      large :=
        if atoms r.slab > max_size then st.large ++ [slab_label r]
        else st.large }

/-- The full dedup pass over the provisional list. -/
def dedup (eq : α → α → Bool) (atoms : α → Nat) (max_size : Nat)
    (recs : List (SlabRec α)) : DedupState α :=
  recs.foldl (dedup_step eq atoms max_size) dedupInit

/-! ### Warnings (lines 147-157 and 310-320) -/

/-- The aggregated duplicate warning text of lines 150-152. -/
def repeat_message (ids : List String) : String :=
  "Not all combinations of hkl or slab/vac thicknesses were generated because of repeat structures. The repeat slabs are: " ++
    String.intercalate ", " ids

/-- The aggregated oversize warning text of lines 156-157. -/
def large_message (ids : List String) : String :=
  "Some generated slabs exceed the max size specified. Slabs that exceed the max size are: " ++
    String.intercalate ", " ids

/-- A warning as emitted by warnings.warn: either the duplicate message
or the oversize message, carrying the identifier list it aggregates. -/
inductive SlabWarning where
  | repeated (ids : List String)
  | oversize (ids : List String)
  deriving DecidableEq, Repr

/-- The message string of a warning. -/
def SlabWarning.message : SlabWarning → String
  | SlabWarning.repeated ids => repeat_message ids
  | SlabWarning.oversize ids => large_message ids

/-- Warning emission of get_one_hkl_slabs (lines 147-157): after the full
dedup pass, one aggregated warning per nonempty accumulator. -/
def warn_after_pass (st : DedupState α) : List SlabWarning :=
  (if st.repeats.isEmpty then [] else [SlabWarning.repeated st.repeats]) ++
  (if st.large.isEmpty then [] else [SlabWarning.oversize st.large])

/-- The dedup state of get_all_slabs together with the warnings emitted
so far: at lines 310-320 the warning checks are indented inside the for
slab in provisional loop, so they run once per candidate. -/
structure DedupWarnState (α : Type) where
  state : DedupState α
  warnings : List SlabWarning
  deriving DecidableEq, Repr

/-- One iteration of the dedup loop of get_all_slabs (lines 291-320): the
dedup step followed by the in-loop warning checks on the accumulators as
they stand after this iteration. -/
def dedup_warn_step (eq : α → α → Bool) (atoms : α → Nat) (max_size : Nat)
    (s : DedupWarnState α) (r : SlabRec α) : DedupWarnState α :=
  let st1 := dedup_step eq atoms max_size s.state r
  { state := st1
    warnings := s.warnings ++
      (if st1.repeats.isEmpty then [] else [SlabWarning.repeated st1.repeats]) ++
      (if st1.large.isEmpty then [] else [SlabWarning.oversize st1.large]) }

/-- The dedup pass of get_all_slabs with its in-loop warning emission. -/
def dedup_with_loop_warnings (eq : α → α → Bool) (atoms : α → Nat)
    (max_size : Nat) (recs : List (SlabRec α)) : DedupWarnState α :=
  recs.foldl (dedup_warn_step eq atoms max_size) ⟨dedupInit, []⟩

/-- Number of duplicate warnings in an emitted warning list. -/
def count_repeat_warnings (ws : List SlabWarning) : Nat :=
  (ws.filter fun w =>
    match w with
    | SlabWarning.repeated _ => true
    | SlabWarning.oversize _ => false).length

/-- Number of oversize warnings in an emitted warning list. -/
def count_oversize_warnings (ws : List SlabWarning) : Nat :=
  (ws.filter fun w =>
    match w with
    | SlabWarning.repeated _ => false
    | SlabWarning.oversize _ => true).length

/-! ### Output emission, flat mode (lines 186-193 and 347-354) -/

/-- The slots of the flat-mode path template
folder/POSCAR_hkl_slabt_vact_sindex.vasp. -/
structure PoscarPath where
  folder : String
  hkl : String
  slab_t : Nat
  vac_t : Nat
  s_index : Nat
  deriving DecidableEq, Repr

/-- Renders the flat-mode path exactly as formatted at line 192 / 353. -/
def PoscarPath.render (p : PoscarPath) : String :=
  p.folder ++ "/POSCAR_" ++ p.hkl ++ "_" ++ toString p.slab_t ++ "_" ++
    toString p.vac_t ++ "_" ++ toString p.s_index ++ ".vasp"

/-- The destination path of one unique-slab record in flat mode. -/
def rec_path (bulk_name : String) (r : SlabRec α) : PoscarPath :=
  ⟨bulk_name, r.hkl, r.slab_t, r.vac_t, r.s_index⟩

/-- Flat-mode emission (lines 190-193 / 351-354): one POSCAR file per
record of unique_list_of_dicts, in order. -/
def flat_mode_files (bulk_name : String) (st : DedupState α) : List PoscarPath :=
  st.unique_list_of_dicts.map (rec_path bulk_name)

/-! ### The two pipeline functions, flat mode -/

/-- Embeds a call to get_one_hkl_slabs with make_fols = make_input_files
= false: validate, enumerate, dedup, emit warnings and flat-mode files.
A required argument that is None but slips past the (any-based) check
makes a later library call fail; that downstream failure is modelled as
a generic error result. -/
def get_one_hkl_slabs (hklStr : α → String) (is_polar is_symm : α → Bool)
    (eq : α → α → Bool) (atoms : α → Nat) (gen : Nat → Nat → List α)
    (bulk_name : String) (structure_arg : Option String)
    (hkl : Option (List Int)) (thicknesses vacuums : Option (List Nat))
    (is_symmetric : Bool) (max_size : Nat) :
    Except String (DedupState α × List SlabWarning × List PoscarPath) :=
  match check_args_one structure_arg hkl thicknesses vacuums with
  | Except.error e => Except.error e
  | Except.ok _ =>
    match structure_arg, hkl, thicknesses, vacuums with
    | some _, some _, some ts, some vs =>
      let st := dedup eq atoms max_size
        (provisional_one hklStr is_polar is_symm is_symmetric gen vs ts)
      Except.ok (st, warn_after_pass st, flat_mode_files bulk_name st)
    | _, _, _, _ =>
      Except.error "TypeError raised downstream of the argument check"

/-- Embeds a call to get_all_slabs with make_fols = make_input_files =
false: validate, enumerate, dedup with in-loop warnings, emit flat-mode
files. -/
def get_all_slabs (hklStr : α → String) (is_polar is_symm : α → Bool)
    (eq : α → α → Bool) (atoms : α → Nat) (gen : Nat → Nat → List α)
    (bulk_name : String) (structure_arg : Option String)
    (max_index : Option Nat) (thicknesses vacuums : Option (List Nat))
    (is_symmetric : Bool) (max_size : Nat) :
    Except String (DedupState α × List SlabWarning × List PoscarPath) :=
  match check_args_all structure_arg max_index thicknesses vacuums with
  | Except.error e => Except.error e
  | Except.ok _ =>
    match structure_arg, max_index, thicknesses, vacuums with
    | some _, some _, some ts, some vs =>
      let sw := dedup_with_loop_warnings eq atoms max_size
        (provisional_all hklStr is_polar is_symm is_symmetric gen vs ts)
      Except.ok (sw.state, sw.warnings, flat_mode_files bulk_name sw.state)
    | _, _, _, _ =>
      Except.error "TypeError raised downstream of the argument check"

/-! ### oxidation_states (lines 356-373) -/

/-- The possible runtime shapes of the ox_states argument, distinguishing
exact dict and exact list from everything else, because the source tests
type(ox_states) is dict and type(ox_states) is list. -/
inductive OxStates where
  | none_arg
  | by_element_dict (d : List (String × Int))
  | dict_subclass (d : List (String × Int))
  | by_site_list (l : List Int)
  | list_subclass (l : List Int)
  | tuple_arg (l : List Int)
  | other_arg
  deriving DecidableEq, Repr

/-- Models type(ox_states) is dict: true only for an exact dict. -/
def is_exact_dict : OxStates → Bool
  | OxStates.by_element_dict _ => true
  | _ => false

/-- Models type(ox_states) is list: true only for an exact list. -/
def is_exact_list : OxStates → Bool
  | OxStates.by_site_list _ => true
  | _ => false

/-- The oxidation-state decoration carried by a structure. -/
inductive OxDecoration where
  | undecorated
  | by_element (d : List (String × Int))
  | by_site (l : List Int)
  | by_guess
  deriving DecidableEq, Repr

/-- A pymatgen structure as far as oxidation_states observes it: an
object identity, its species and its decoration.  The external mutators
update the decoration of the same object. -/
structure PmgStructure where
  obj_id : Nat
  species : List String
  decoration : OxDecoration
  deriving DecidableEq, Repr

/-- External mutator add_oxidation_state_by_element: decorates in place. -/
def add_oxidation_state_by_element (s : PmgStructure)
    (d : List (String × Int)) : PmgStructure :=
  { s with decoration := OxDecoration.by_element d }

/-- External mutator add_oxidation_state_by_site: decorates in place. -/
def add_oxidation_state_by_site (s : PmgStructure)
    (l : List Int) : PmgStructure :=
  { s with decoration := OxDecoration.by_site l }

/-- External mutator add_oxidation_state_by_guess with max_sites = -1:
decorates in place. -/
def add_oxidation_state_by_guess (s : PmgStructure) : PmgStructure :=
  { s with decoration := OxDecoration.by_guess }

/-- Embeds oxidation_states (lines 356-373): dispatch on the exact
runtime type of ox_states, defaulting to the guess branch, and return
the structure that was passed in. -/
def oxidation_states (structure_obj : PmgStructure)
    (ox_states : OxStates) : PmgStructure :=
  match ox_states with
  | OxStates.by_element_dict d => add_oxidation_state_by_element structure_obj d
  | OxStates.by_site_list l => add_oxidation_state_by_site structure_obj l
  | _ => add_oxidation_state_by_guess structure_obj

/-! ### Lemmas about the enumeration -/

/-- The inner enumerate loop equals filtering the indexed slab list by
the selection test and building a record from each kept pair. -/
theorem collect_batch_eq (hklStr : α → String) (keep : α → Bool) (t v : Nat)
    (l : List α) : ∀ i : Nat,
    collect_batch hklStr keep t v i l =
      ((List.enumFrom i l).filter fun p => keep p.2).map
        fun p => SlabRec.mk (hklStr p.2) t v p.1 p.2 := by
  induction l with
  | nil => intro i; rfl
  | cons s rest ih =>
    intro i
    rw [collect_batch]
    cases hk : keep s <;>
      simp [List.enumFrom_cons, List.filter_cons, hk, ih (i + 1)]

/-- Every record collected from a batch carries the thickness and vacuum
of the batch, an index at least the starting counter that points back at
its slab in the generated list, and a slab passing the selection test. -/
theorem mem_collect_batch (hklStr : α → String) (keep : α → Bool) (t v : Nat)
    (l : List α) : ∀ (i : Nat) (r : SlabRec α),
    r ∈ collect_batch hklStr keep t v i l →
      r.slab_t = t ∧ r.vac_t = v ∧ i ≤ r.s_index ∧
      l.get? (r.s_index - i) = some r.slab ∧ keep r.slab = true := by
  induction l with
  | nil => intro i r h; simp [collect_batch] at h
  | cons s rest ih =>
    intro i r h
    rw [collect_batch] at h
    cases hk : keep s with
    | false =>
      rw [hk] at h
      simp only [if_neg Bool.false_ne_true] at h
      obtain ⟨h1, h2, h3, h4, h5⟩ := ih (i + 1) r h
      refine ⟨h1, h2, Nat.le_of_succ_le h3, ?_, h5⟩
      have hs : r.s_index - i = (r.s_index - (i + 1)) + 1 := by omega
      rw [hs, List.get?_cons_succ]
      exact h4
    | true =>
      rw [hk] at h
      simp only [if_pos rfl] at h
      rcases List.mem_cons.1 h with hr | hr
      · subst hr
        exact ⟨rfl, rfl, Nat.le_refl i, by simp, hk⟩
      · obtain ⟨h1, h2, h3, h4, h5⟩ := ih (i + 1) r hr
        refine ⟨h1, h2, Nat.le_of_succ_le h3, ?_, h5⟩
        have hs : r.s_index - i = (r.s_index - (i + 1)) + 1 := by omega
        rw [hs, List.get?_cons_succ]
        exact h4

/-- Within one batch the collected indices are strictly increasing. -/
theorem collect_batch_sidx_pairwise (hklStr : α → String) (keep : α → Bool)
    (t v : Nat) (l : List α) : ∀ i : Nat,
    (collect_batch hklStr keep t v i l).Pairwise
      fun a b => a.s_index < b.s_index := by
  induction l with
  | nil => intro i; simp [collect_batch]
  | cons s rest ih =>
    intro i
    rw [collect_batch]
    cases hk : keep s with
    | false => simpa using ih (i + 1)
    | true =>
      simp only [if_pos rfl]
      refine List.Pairwise.cons ?_ (ih (i + 1))
      intro b hb
      have hle := (mem_collect_batch hklStr keep t v rest (i + 1) b hb).2.2.1
      exact Nat.lt_of_lt_of_le (Nat.lt_succ_self i) hle

/-- Every record of the provisional grid points back at its slab in the
generated batch named by its own thickness and vacuum fields, passes the
selection test, and draws its thickness and vacuum from the two input
lists. -/
theorem mem_provisional_grid (hklStr : α → String) (keep : α → Bool)
    (gen : Nat → Nat → List α) (vacuums thicknesses : List Nat)
    (r : SlabRec α) (h : r ∈ provisional_grid hklStr keep gen vacuums thicknesses) :
    r.vac_t ∈ vacuums ∧ r.slab_t ∈ thicknesses ∧
    (gen r.slab_t r.vac_t).get? r.s_index = some r.slab ∧
    keep r.slab = true := by
  rcases List.mem_flatMap.1 h with ⟨v, hv, h2⟩
  rcases List.mem_flatMap.1 h2 with ⟨t, ht, h3⟩
  obtain ⟨h1, h2, _, h4, h5⟩ :=
    mem_collect_batch hklStr keep t v (gen t v) 0 r h3
  subst h1; subst h2
  rw [Nat.sub_zero] at h4
  exact ⟨hv, ht, h4, h5⟩

/-! ### Lemmas about the dedup pass -/

/-- Python membership returns false exactly when no stored slab compares
equal to the candidate. -/
theorem list_contains_eq_false (eq : α → α → Bool) (l : List α) (x : α) :
    list_contains eq l x = false ↔ ∀ y ∈ l, eq y x = false := by
  simp [list_contains, List.any_eq_false]

/-- Along the dedup fold, unique_list stays the slab projection of
unique_list_of_dicts. -/
theorem foldl_dedup_unique_eq_map (eq : α → α → Bool) (atoms : α → Nat)
    (m : Nat) : ∀ (recs : List (SlabRec α)) (st : DedupState α),
    st.unique_list = st.unique_list_of_dicts.map (fun r => r.slab) →
    (recs.foldl (dedup_step eq atoms m) st).unique_list =
      (recs.foldl (dedup_step eq atoms m) st).unique_list_of_dicts.map
        fun r => r.slab := by
  intro recs
  induction recs with
  | nil => intro st h; simpa using h
  | cons r rest ih =>
    intro st h
    rw [List.foldl_cons]
    apply ih
    by_cases hc : list_contains eq st.unique_list r.slab = true
    · have h2 : dedup_step eq atoms m st r =
          { st with repeats := st.repeats ++ [slab_label r] } := by
        simp [dedup_step, hc]
      rw [h2]
      exact h
    · have h2 : dedup_step eq atoms m st r =
          { unique_list := st.unique_list ++ [r.slab]
            unique_list_of_dicts := st.unique_list_of_dicts ++ [r]
            repeats := st.repeats
            large := if atoms r.slab > m then st.large ++ [slab_label r]
              else st.large } := by
        simp [dedup_step, hc]
      rw [h2]
      show st.unique_list ++ [r.slab] =
        List.map (fun r => r.slab) (st.unique_list_of_dicts ++ [r])
      rw [List.map_append, h]
      rfl

/-- Along the dedup fold, the stored unique slabs stay pairwise unequal
under the external predicate (earlier element compared to later one). -/
theorem foldl_dedup_pairwise (eq : α → α → Bool) (atoms : α → Nat)
    (m : Nat) : ∀ (recs : List (SlabRec α)) (st : DedupState α),
    st.unique_list.Pairwise (fun a b => eq a b = false) →
    (recs.foldl (dedup_step eq atoms m) st).unique_list.Pairwise
      fun a b => eq a b = false := by
  intro recs
  induction recs with
  | nil => intro st h; simpa using h
  | cons r rest ih =>
    intro st h
    rw [List.foldl_cons]
    apply ih
    by_cases hc : list_contains eq st.unique_list r.slab = true
    · have h2 : dedup_step eq atoms m st r =
          { st with repeats := st.repeats ++ [slab_label r] } := by
        simp [dedup_step, hc]
      rw [h2]
      exact h
    · have hall := (list_contains_eq_false eq st.unique_list r.slab).1
        (Bool.eq_false_iff.2 hc)
      have h2 : dedup_step eq atoms m st r =
          { unique_list := st.unique_list ++ [r.slab]
            unique_list_of_dicts := st.unique_list_of_dicts ++ [r]
            repeats := st.repeats
            large := if atoms r.slab > m then st.large ++ [slab_label r]
              else st.large } := by
        simp [dedup_step, hc]
      rw [h2]
      show List.Pairwise (fun a b => eq a b = false)
        (st.unique_list ++ [r.slab])
      refine List.pairwise_append.2 ⟨h, List.pairwise_singleton _ _, ?_⟩
      intro a ha b hb
      rw [List.mem_singleton.1 hb]
      exact hall a ha

/-- Along the dedup fold, the oversize accumulator is exactly the labels
of the accepted unique records whose atom count strictly exceeds
max_size. -/
theorem foldl_dedup_large_eq (eq : α → α → Bool) (atoms : α → Nat)
    (m : Nat) : ∀ (recs : List (SlabRec α)) (st : DedupState α),
    st.large = (st.unique_list_of_dicts.filter fun r =>
      decide (atoms r.slab > m)).map slab_label →
    (recs.foldl (dedup_step eq atoms m) st).large =
      ((recs.foldl (dedup_step eq atoms m) st).unique_list_of_dicts.filter
        fun r => decide (atoms r.slab > m)).map slab_label := by
  intro recs
  induction recs with
  | nil => intro st h; simpa using h
  | cons r rest ih =>
    intro st h
    rw [List.foldl_cons]
    apply ih
    by_cases hc : list_contains eq st.unique_list r.slab = true
    · simp [dedup_step, hc, h]
    · by_cases ha : atoms r.slab > m
      · simp [dedup_step, hc, ha, List.filter_append, h]
      · simp [dedup_step, hc, ha, List.filter_append, h]

/-- Every candidate processed by the dedup fold lands in exactly one of
unique_list_of_dicts and the repeat list. -/
theorem foldl_dedup_count (eq : α → α → Bool) (atoms : α → Nat)
    (m : Nat) : ∀ (recs : List (SlabRec α)) (st : DedupState α),
    (recs.foldl (dedup_step eq atoms m) st).unique_list_of_dicts.length +
      (recs.foldl (dedup_step eq atoms m) st).repeats.length =
    st.unique_list_of_dicts.length + st.repeats.length + recs.length := by
  intro recs
  induction recs with
  | nil => intro st; simp
  | cons r rest ih =>
    intro st
    rw [List.foldl_cons]
    by_cases hc : list_contains eq st.unique_list r.slab = true
    · have := ih (dedup_step eq atoms m st r)
      rw [this]
      simp [dedup_step, hc]
      omega
    · have := ih (dedup_step eq atoms m st r)
      rw [this]
      simp [dedup_step, hc]
      omega

/-- The retained unique records form a sublist of the processed
candidate list. -/
theorem foldl_dedup_dicts_sublist (eq : α → α → Bool) (atoms : α → Nat)
    (m : Nat) : ∀ (recs : List (SlabRec α)) (st : DedupState α),
    ((recs.foldl (dedup_step eq atoms m) st).unique_list_of_dicts).Sublist
      (st.unique_list_of_dicts ++ recs) := by
  intro recs
  induction recs with
  | nil => intro st; simp
  | cons r rest ih =>
    intro st
    rw [List.foldl_cons]
    by_cases hc : list_contains eq st.unique_list r.slab = true
    · have h1 := ih (dedup_step eq atoms m st r)
      have h2 : (dedup_step eq atoms m st r).unique_list_of_dicts =
          st.unique_list_of_dicts := by simp [dedup_step, hc]
      rw [h2] at h1
      exact h1.trans
        ((List.sublist_cons_self r rest).append_left st.unique_list_of_dicts)
    · have h1 := ih (dedup_step eq atoms m st r)
      have h2 : (dedup_step eq atoms m st r).unique_list_of_dicts =
          st.unique_list_of_dicts ++ [r] := by simp [dedup_step, hc]
      rw [h2, List.append_assoc, List.singleton_append] at h1
      exact h1

/-- When every candidate is new with respect to the current state and the
candidates are pairwise unequal among themselves, the dedup fold accepts
all of them, diverts none, and flags exactly the oversize ones. -/
theorem foldl_dedup_all_new (eq : α → α → Bool) (atoms : α → Nat)
    (m : Nat) : ∀ (recs : List (SlabRec α)) (st : DedupState α),
    (∀ u ∈ st.unique_list, ∀ r ∈ recs, eq u r.slab = false) →
    ((recs.map fun r => r.slab).Pairwise fun a b => eq a b = false) →
    recs.foldl (dedup_step eq atoms m) st =
      { unique_list := st.unique_list ++ recs.map fun r => r.slab
        unique_list_of_dicts := st.unique_list_of_dicts ++ recs
        repeats := st.repeats
        large := st.large ++
          ((recs.filter fun r => decide (atoms r.slab > m)).map slab_label) } := by
  intro recs
  induction recs with
  | nil => intro st _ _; cases st; simp
  | cons r rest ih =>
    intro st hu hp
    have hcont : list_contains eq st.unique_list r.slab = false :=
      (list_contains_eq_false eq st.unique_list r.slab).2
        fun u hmem => hu u hmem r (List.mem_cons_self r rest)
    rw [List.map_cons, List.pairwise_cons] at hp
    obtain ⟨hhead, htail⟩ := hp
    rw [List.foldl_cons]
    have hstep : dedup_step eq atoms m st r =
        { unique_list := st.unique_list ++ [r.slab]
          unique_list_of_dicts := st.unique_list_of_dicts ++ [r]
          repeats := st.repeats
          large := if atoms r.slab > m then st.large ++ [slab_label r]
            else st.large } := by
      simp [dedup_step, hcont]
    rw [hstep]
    rw [ih _ ?_ htail]
    · by_cases ha : atoms r.slab > m
      · simp [ha, List.append_assoc, List.filter_cons]
      · simp [ha, List.append_assoc, List.filter_cons]
    · intro u hmem r2 hr2
      rcases List.mem_append.1 hmem with h | h
      · exact hu u h r2 (List.mem_cons_of_mem r hr2)
      · rw [List.mem_singleton.1 h]
        exact hhead r2.slab (List.mem_map_of_mem _ hr2)

/-- The dedup state computed by get_all_slabs with its in-loop warning
checks agrees with the plain dedup pass of get_one_hkl_slabs. -/
theorem dedup_with_loop_warnings_state (eq : α → α → Bool)
    (atoms : α → Nat) (m : Nat) (recs : List (SlabRec α)) :
    (dedup_with_loop_warnings eq atoms m recs).state =
      dedup eq atoms m recs := by
  have haux : ∀ (l : List (SlabRec α)) (s : DedupWarnState α),
      (l.foldl (dedup_warn_step eq atoms m) s).state =
        l.foldl (dedup_step eq atoms m) s.state := by
    intro l
    induction l with
    | nil => intro s; rfl
    | cons r rest ih =>
      intro s
      rw [List.foldl_cons, List.foldl_cons, ih]
      rfl
  exact haux recs ⟨dedupInit, []⟩

/-! ### Lemmas about the naming tuples behind the output paths -/

/-- The fields of a record that feed the numeric slots of its output
path: vacuum thickness, slab thickness and batch index. -/
def rec_key (r : SlabRec α) : Nat × Nat × Nat :=
  (r.vac_t, r.slab_t, r.s_index)

/-- The same three slots read back off a rendered path value. -/
def path_key (p : PoscarPath) : Nat × Nat × Nat :=
  (p.vac_t, p.slab_t, p.s_index)

/-- Keys of one batch name the thickness and vacuum of that batch. -/
theorem mem_map_key_batch (hklStr : α → String) (keep : α → Bool)
    (t v i : Nat) (l : List α) :
    ∀ k ∈ (collect_batch hklStr keep t v i l).map rec_key,
      k.1 = v ∧ k.2.1 = t := by
  intro k hk
  rcases List.mem_map.1 hk with ⟨r, hr, hkey⟩
  obtain ⟨h1, h2, _, _, _⟩ := mem_collect_batch hklStr keep t v l i r hr
  subst hkey
  exact ⟨h2, h1⟩

/-- Within one batch the keys are distinct, because the indices are. -/
theorem batch_key_nodup (hklStr : α → String) (keep : α → Bool)
    (t v i : Nat) (l : List α) :
    ((collect_batch hklStr keep t v i l).map rec_key).Nodup := by
  have hp := collect_batch_sidx_pairwise hklStr keep t v l i
  rw [List.Nodup, List.pairwise_map]
  refine hp.imp ?_
  intro a b hlt heq
  have : a.s_index = b.s_index := congrArg (fun k => k.2.2) heq
  omega

/-- Over a duplicate-free grid of vacuums and thicknesses, the naming
keys of the whole provisional list are pairwise distinct. -/
theorem provisional_grid_key_nodup (hklStr : α → String) (keep : α → Bool)
    (gen : Nat → Nat → List α) (vacuums thicknesses : List Nat)
    (hv : vacuums.Nodup) (ht : thicknesses.Nodup) :
    ((provisional_grid hklStr keep gen vacuums thicknesses).map rec_key).Nodup := by
  rw [provisional_grid, List.map_flatMap]
  refine List.nodup_flatMap.2 ⟨?_, ?_⟩
  · intro v _
    rw [List.map_flatMap]
    refine List.nodup_flatMap.2 ⟨?_, ?_⟩
    · intro t _
      exact batch_key_nodup hklStr keep t v 0 (gen t v)
    · refine ht.imp ?_
      intro t1 t2 hne
      rw [Function.onFun, List.disjoint_left]
      intro k hk1 hk2
      have e1 := (mem_map_key_batch hklStr keep t1 v 0 (gen t1 v) k hk1).2
      have e2 := (mem_map_key_batch hklStr keep t2 v 0 (gen t2 v) k hk2).2
      exact hne (e1 ▸ e2 ▸ rfl)
  · refine hv.imp ?_
    intro v1 v2 hne
    rw [Function.onFun, List.disjoint_left]
    intro k hk1 hk2
    rw [List.map_flatMap, List.mem_flatMap] at hk1 hk2
    rcases hk1 with ⟨t1, _, hm1⟩
    rcases hk2 with ⟨t2, _, hm2⟩
    have e1 := (mem_map_key_batch hklStr keep t1 v1 0 (gen t1 v1) k hm1).1
    have e2 := (mem_map_key_batch hklStr keep t2 v2 0 (gen t2 v2) k hm2).1
    exact hne (e1 ▸ e2 ▸ rfl)

/-- Distinct record keys give distinct flat-mode path values. -/
theorem flat_files_nodup_of_key_nodup (bulk_name : String)
    (l : List (SlabRec α)) (h : (l.map rec_key).Nodup) :
    (l.map (rec_path bulk_name)).Nodup := by
  have hcomp : l.map rec_key =
      (l.map (rec_path bulk_name)).map path_key := by
    rw [List.map_map]
    rfl
  rw [hcomp] at h
  exact List.Nodup.of_map path_key h

/-! ### Claim C1 -/

/-- C1: the validation of get_one_hkl_slabs and get_all_slabs does not
raise when only some required arguments are missing.  With hkl (resp.
max_index) equal to None but a structure path supplied, the check
not any([structure, hkl, thicknesses, vacuums]) passes and no ValueError
is raised, against the documented contract that each of the four
arguments is required; the error fires only when all four are falsy. -/
theorem C1_check_passes_with_missing_args :
    check_args_one (some "POSCAR") none (some [10]) (some [20]) =
      Except.ok () ∧
    check_args_all (some "POSCAR") none (some [10]) (some [20]) =
      Except.ok () ∧
    check_args_one none none none none =
      Except.error "One or more of the required arguments (structure, hkl, thicknesses, vacuums) were not supplied." :=
  ⟨rfl, rfl, rfl⟩

/-! ### Claim C2 -/

/-- C2 counterexample: a get_all_slabs dedup pass over three candidates
whose first two slabs are equal emits the aggregated duplicate warning
twice, once at the duplicate and once more on the following iteration,
because the warning checks sit inside the per-candidate loop; the claim
that at most one duplicate warning is emitted per call is false. -/
theorem C2_counterexample_two_repeat_warnings :
    ¬ (count_repeat_warnings
        (dedup_with_loop_warnings (fun a b : Nat => a == b) (fun n => n) 500
          [⟨"001", 10, 20, 0, 5⟩, ⟨"001", 10, 20, 1, 5⟩,
           ⟨"001", 10, 20, 2, 7⟩]).warnings ≤ 1) := by
  decide

/-- C2 as amended: in get_one_hkl_slabs the warnings are emitted after
the full dedup pass, at most one duplicate warning and at most one
oversize warning per call, each aggregating the complete identifier
list; get_all_slabs computes the same dedup state, but its warning
checks run inside the per-candidate loop and can fire repeatedly. -/
theorem C2_one_hkl_warning_aggregation (eq : α → α → Bool)
    (atoms : α → Nat) (m : Nat) (recs : List (SlabRec α)) :
    count_repeat_warnings (warn_after_pass (dedup eq atoms m recs)) ≤ 1 ∧
    count_oversize_warnings (warn_after_pass (dedup eq atoms m recs)) ≤ 1 ∧
    ((dedup eq atoms m recs).repeats.isEmpty = false →
      SlabWarning.repeated (dedup eq atoms m recs).repeats ∈
        warn_after_pass (dedup eq atoms m recs)) ∧
    ((dedup eq atoms m recs).large.isEmpty = false →
      SlabWarning.oversize (dedup eq atoms m recs).large ∈
        warn_after_pass (dedup eq atoms m recs)) ∧
    (dedup_with_loop_warnings eq atoms m recs).state = dedup eq atoms m recs := by
  refine ⟨?_, ?_, ?_, ?_, dedup_with_loop_warnings_state eq atoms m recs⟩ <;>
    cases h1 : (dedup eq atoms m recs).repeats.isEmpty <;>
    cases h2 : (dedup eq atoms m recs).large.isEmpty <;>
    simp [warn_after_pass, count_repeat_warnings, count_oversize_warnings,
      h1, h2]

/-- Witness for C2: the aggregation bound evaluated on a concrete pass
with one duplicate and one oversize candidate. -/
theorem C2_one_hkl_warning_aggregation_witness :
    count_repeat_warnings (warn_after_pass
      (dedup (fun a b : Nat => a == b) (fun n => n) 30
        [⟨"001", 10, 20, 0, 31⟩, ⟨"001", 10, 20, 1, 31⟩])) ≤ 1 :=
  (C2_one_hkl_warning_aggregation (fun a b : Nat => a == b) (fun n => n) 30
    [⟨"001", 10, 20, 0, 31⟩, ⟨"001", 10, 20, 1, 31⟩]).1

/-! ### Claim C3 -/

/-- C3: both selection branches keep a slab exactly when it is non-polar
and, when is_symmetric is set, additionally inversion-symmetric; a polar
slab is rejected in every configuration, and every record retained in
either provisional list is non-polar, symmetric when required. -/
theorem C3_selection_policy (is_polar is_symm : α → Bool) (b : Bool)
    (s : α) (hklStr : α → String) (gen : Nat → Nat → List α)
    (vacuums thicknesses : List Nat) :
    keep_all b is_polar is_symm s = keep_one b is_polar is_symm s ∧
    keep_one true is_polar is_symm s = (is_symm s && !is_polar s) ∧
    keep_one false is_polar is_symm s = !is_polar s ∧
    (is_polar s = true → keep_one b is_polar is_symm s = false) ∧
    (∀ r ∈ provisional_one hklStr is_polar is_symm b gen vacuums thicknesses,
      is_polar r.slab = false ∧ (b = true → is_symm r.slab = true)) ∧
    (∀ r ∈ provisional_all hklStr is_polar is_symm b gen vacuums thicknesses,
      is_polar r.slab = false ∧ (b = true → is_symm r.slab = true)) := by
  have hkeep : ∀ x : α, keep_one b is_polar is_symm x = true →
      is_polar x = false ∧ (b = true → is_symm x = true) := by
    intro x hx
    cases b <;> cases hp : is_polar x <;> cases hs : is_symm x <;>
      simp_all [keep_one]
  refine ⟨?_, ?_, ?_, ?_, ?_, ?_⟩
  · cases b <;> cases hp : is_polar s <;> cases hs : is_symm s <;>
      simp [keep_one, keep_all, hp, hs]
  · rfl
  · rfl
  · intro hp
    cases b <;> simp [keep_one, hp]
  · intro r hr
    exact hkeep r.slab
      (mem_provisional_grid hklStr _ gen vacuums thicknesses r hr).2.2.2
  · intro r hr
    have hk := (mem_provisional_grid hklStr _ gen vacuums thicknesses r hr).2.2.2
    have heq : keep_all b is_polar is_symm r.slab =
        keep_one b is_polar is_symm r.slab := by
      cases b <;> cases hp : is_polar r.slab <;> cases hs : is_symm r.slab <;>
        simp [keep_one, keep_all, hp, hs]
    exact hkeep r.slab (heq ▸ hk)

/-- Witness for C3: the policy agreement evaluated at a concrete polar
slab with symmetry required. -/
theorem C3_selection_policy_witness :
    keep_all true (fun x : Bool => x) (fun _ => true) true =
      keep_one true (fun x : Bool => x) (fun _ => true) true :=
  (C3_selection_policy (fun x : Bool => x) (fun _ => true) true true
    (fun _ => "001") (fun _ _ => []) [] []).1

/-! ### Claim C4 -/

/-- C4: after the dedup pass no two retained unique slabs compare equal
under the (symmetric) external equality predicate, in either order, and
every candidate lands in exactly one of the unique-record list and the
duplicate list. -/
theorem C4_unique_list_pairwise_unequal (eq : α → α → Bool)
    (atoms : α → Nat) (m : Nat) (recs : List (SlabRec α))
    (hsymm : ∀ a b, eq a b = eq b a) :
    (dedup eq atoms m recs).unique_list.Pairwise
      (fun a b => eq a b = false ∧ eq b a = false) ∧
    (dedup eq atoms m recs).unique_list_of_dicts.length +
      (dedup eq atoms m recs).repeats.length = recs.length := by
  constructor
  · have hp := foldl_dedup_pairwise eq atoms m recs dedupInit
      (by simp [dedupInit])
    exact hp.imp fun {a b} h => ⟨h, by rw [hsymm b a]; exact h⟩
  · have hc := foldl_dedup_count eq atoms m recs dedupInit
    simpa [dedup, dedupInit] using hc

/-- Witness for C4: the invariant evaluated on a concrete pass with one
duplicate. -/
theorem C4_unique_list_pairwise_unequal_witness :
    (dedup (fun a b : Bool => a == b) (fun _ => 3) 500
      [⟨"001", 10, 20, 0, true⟩, ⟨"001", 10, 20, 1, true⟩]).unique_list.Pairwise
      (fun a b => (a == b) = false ∧ (b == a) = false) ∧
    (dedup (fun a b : Bool => a == b) (fun _ => 3) 500
      [⟨"001", 10, 20, 0, true⟩, ⟨"001", 10, 20, 1, true⟩]).unique_list_of_dicts.length +
      (dedup (fun a b : Bool => a == b) (fun _ => 3) 500
        [⟨"001", 10, 20, 0, true⟩, ⟨"001", 10, 20, 1, true⟩]).repeats.length = 2 :=
  C4_unique_list_pairwise_unequal (fun a b : Bool => a == b) (fun _ => 3) 500
    [⟨"001", 10, 20, 0, true⟩, ⟨"001", 10, 20, 1, true⟩] (by decide)

/-! ### Claim C5 -/

/-- C5: the oversize list is exactly the labels of the accepted unique
records whose atom count strictly exceeds max_size, so a record with
atom count equal to max_size is not flagged and a candidate diverted to
the duplicate list is never flagged. -/
theorem C5_oversize_exactly_above_max (eq : α → α → Bool)
    (atoms : α → Nat) (m : Nat) (recs : List (SlabRec α)) :
    (dedup eq atoms m recs).large =
      ((dedup eq atoms m recs).unique_list_of_dicts.filter fun r =>
        decide (atoms r.slab > m)).map slab_label := by
  have h := foldl_dedup_large_eq eq atoms m recs dedupInit
    (by simp [dedupInit])
  simpa [dedup] using h

/-! ### Claim C6 -/

/-- C6: when symmetry is required and no generated slab is both
non-polar and inversion-symmetric for any grid pair, both pipeline
functions return normally with an empty dedup state, no warnings and no
output files. -/
theorem C6_empty_unique_set_no_error (hklStr : α → String)
    (is_polar is_symm : α → Bool) (eq : α → α → Bool) (atoms : α → Nat)
    (gen : Nat → Nat → List α) (bulk_name sf : String) (h : List Int)
    (mi : Nat) (ts vs : List Nat) (m : Nat) (hsf : sf.isEmpty = false)
    (hgen : ∀ v ∈ vs, ∀ t ∈ ts, ∀ s ∈ gen t v,
      ¬(is_polar s = false ∧ is_symm s = true)) :
    get_one_hkl_slabs hklStr is_polar is_symm eq atoms gen bulk_name
      (some sf) (some h) (some ts) (some vs) true m =
      Except.ok (dedupInit, [], []) ∧
    get_all_slabs hklStr is_polar is_symm eq atoms gen bulk_name
      (some sf) (some mi) (some ts) (some vs) true m =
      Except.ok (dedupInit, [], []) := by
  have hone : provisional_one hklStr is_polar is_symm true gen vs ts = [] := by
    rw [List.eq_nil_iff_forall_not_mem]
    intro r hr
    obtain ⟨hv, ht, hget, hk⟩ :=
      mem_provisional_grid hklStr _ gen vs ts r hr
    have hmem : r.slab ∈ gen r.slab_t r.vac_t := List.get?_mem hget
    have hbad := hgen r.vac_t hv r.slab_t ht r.slab hmem
    cases hp : is_polar r.slab <;> cases hs : is_symm r.slab <;>
      simp_all [keep_one]
  have hall : provisional_all hklStr is_polar is_symm true gen vs ts = [] := by
    rw [List.eq_nil_iff_forall_not_mem]
    intro r hr
    obtain ⟨hv, ht, hget, hk⟩ :=
      mem_provisional_grid hklStr _ gen vs ts r hr
    have hmem : r.slab ∈ gen r.slab_t r.vac_t := List.get?_mem hget
    have hbad := hgen r.vac_t hv r.slab_t ht r.slab hmem
    cases hp : is_polar r.slab <;> cases hs : is_symm r.slab <;>
      simp_all [keep_all]
  have hchk1 : check_args_one (some sf) (some h) (some ts) (some vs) =
      Except.ok () := by
    simp [check_args_one, truthyStr, hsf]
  have hchk2 : check_args_all (some sf) (some mi) (some ts) (some vs) =
      Except.ok () := by
    simp [check_args_all, truthyStr, hsf]
  constructor
  · simp only [get_one_hkl_slabs, hchk1, hone]
    rfl
  · simp only [get_all_slabs, hchk2, hall]
    rfl

/-- Witness for C6: a concrete polar-only generator with symmetry
required yields the empty result without an error. -/
theorem C6_empty_unique_set_no_error_witness :
    get_one_hkl_slabs (fun _ : Bool => "001") (fun x => x) (fun _ => true)
      (fun a b => a == b) (fun _ => 4) (fun _ _ => [true]) "Bulk"
      (some "POSCAR") (some [0, 0, 1]) (some [10]) (some [20]) true 500 =
      Except.ok (dedupInit, [], []) :=
  (C6_empty_unique_set_no_error (fun _ : Bool => "001") (fun x => x)
    (fun _ => true) (fun a b => a == b) (fun _ => 4) (fun _ _ => [true])
    "Bulk" "POSCAR" [0, 0, 1] 1 [10] [20] 500 (by decide) (by decide)).1

/-! ### Claim C7 -/

/-- C7: the provisional list enumerates the grid with the outer loop
over vacuums and the inner loop over thicknesses, filtering the indexed
generator output, and the s_index of every retained record is its
position in the generator output for its own (thickness, vacuum) pair,
rejected slabs included. -/
theorem C7_enumeration_order (hklStr : α → String)
    (is_polar is_symm : α → Bool) (b : Bool)
    (gen gen_all : Nat → Nat → List α) (vacuums thicknesses : List Nat) :
    provisional_one hklStr is_polar is_symm b gen vacuums thicknesses =
      (vacuums.flatMap fun vacuum => thicknesses.flatMap fun thickness =>
        ((gen thickness vacuum).enum.filter fun p =>
            keep_one b is_polar is_symm p.2).map
          fun p => SlabRec.mk (hklStr p.2) thickness vacuum p.1 p.2) ∧
    (∀ r ∈ provisional_one hklStr is_polar is_symm b gen vacuums thicknesses,
      (gen r.slab_t r.vac_t).get? r.s_index = some r.slab) ∧
    provisional_all hklStr is_polar is_symm b gen_all vacuums thicknesses =
      (vacuums.flatMap fun vacuum => thicknesses.flatMap fun thickness =>
        ((gen_all thickness vacuum).enum.filter fun p =>
            keep_all b is_polar is_symm p.2).map
          fun p => SlabRec.mk (hklStr p.2) thickness vacuum p.1 p.2) ∧
    (∀ r ∈ provisional_all hklStr is_polar is_symm b gen_all vacuums thicknesses,
      (gen_all r.slab_t r.vac_t).get? r.s_index = some r.slab) := by
  have henum : ∀ (l : List α), l.enum = l.enumFrom 0 := fun _ => rfl
  refine ⟨?_, ?_, ?_, ?_⟩
  · simp only [provisional_one, provisional_grid, collect_batch_eq, henum]
  · intro r hr
    exact (mem_provisional_grid hklStr _ gen vacuums thicknesses r hr).2.2.1
  · simp only [provisional_all, provisional_grid, collect_batch_eq, henum]
  · intro r hr
    exact (mem_provisional_grid hklStr _ gen_all vacuums thicknesses r hr).2.2.1

/-- Witness for C7: the characterisation evaluated on a concrete grid in
which the generator yields one rejected and one kept slab. -/
theorem C7_enumeration_order_witness :
    provisional_one (fun _ : Bool => "001") (fun x => x) (fun _ => true)
      false (fun _ _ => [true, false]) [20, 30] [10] =
      ([20, 30].flatMap fun vacuum => [10].flatMap fun thickness =>
        (([true, false].enum.filter fun p =>
            keep_one false (fun x => x) (fun _ => true) p.2).map
          fun p => SlabRec.mk "001" thickness vacuum p.1 p.2) :
        List (SlabRec Bool)) :=
  (C7_enumeration_order (fun _ : Bool => "001") (fun x => x) (fun _ => true)
    false (fun _ _ => [true, false]) (fun _ _ => [true, false])
    [20, 30] [10]).1

/-! ### Claim C8 -/

/-- Over a duplicate-free grid, the flat-mode path values of the
retained unique records of a provisional grid are pairwise distinct. -/
theorem flat_mode_files_nodup_grid (hklStr : α → String) (keep : α → Bool)
    (gen : Nat → Nat → List α) (eq : α → α → Bool) (atoms : α → Nat)
    (m : Nat) (bulk_name : String) (vacuums thicknesses : List Nat)
    (hv : vacuums.Nodup) (ht : thicknesses.Nodup) :
    (flat_mode_files bulk_name (dedup eq atoms m
      (provisional_grid hklStr keep gen vacuums thicknesses))).Nodup := by
  have hkeys :=
    provisional_grid_key_nodup hklStr keep gen vacuums thicknesses hv ht
  have hsub := foldl_dedup_dicts_sublist eq atoms m
    (provisional_grid hklStr keep gen vacuums thicknesses) dedupInit
  have hsub2 : (dedup eq atoms m
      (provisional_grid hklStr keep gen vacuums thicknesses)).unique_list_of_dicts.Sublist
      (provisional_grid hklStr keep gen vacuums thicknesses) := by
    simpa [dedup, dedupInit] using hsub
  have hkeys2 : ((dedup eq atoms m
      (provisional_grid hklStr keep gen vacuums thicknesses)).unique_list_of_dicts.map
        rec_key).Nodup :=
    List.Nodup.sublist (List.Sublist.map rec_key hsub2) hkeys
  exact flat_files_nodup_of_key_nodup bulk_name _ hkeys2

/-- C8: in flat mode each unique-slab record yields exactly one output
path, and over a duplicate-free thickness and vacuum grid no two unique
records of either pipeline share a path. -/
theorem C8_one_distinct_path_per_unique (hklStr : α → String)
    (is_polar is_symm : α → Bool) (eq : α → α → Bool) (atoms : α → Nat)
    (b : Bool) (gen gen_all : Nat → Nat → List α)
    (vacuums thicknesses : List Nat) (m : Nat) (bulk_name : String)
    (hv : vacuums.Nodup) (ht : thicknesses.Nodup) :
    (flat_mode_files bulk_name (dedup eq atoms m (provisional_one hklStr
      is_polar is_symm b gen vacuums thicknesses))).length =
      (dedup eq atoms m (provisional_one hklStr is_polar is_symm b gen
        vacuums thicknesses)).unique_list_of_dicts.length ∧
    (flat_mode_files bulk_name (dedup eq atoms m (provisional_one hklStr
      is_polar is_symm b gen vacuums thicknesses))).Nodup ∧
    (flat_mode_files bulk_name (dedup eq atoms m (provisional_all hklStr
      is_polar is_symm b gen_all vacuums thicknesses))).length =
      (dedup eq atoms m (provisional_all hklStr is_polar is_symm b gen_all
        vacuums thicknesses)).unique_list_of_dicts.length ∧
    (flat_mode_files bulk_name (dedup eq atoms m (provisional_all hklStr
      is_polar is_symm b gen_all vacuums thicknesses))).Nodup := by
  refine ⟨?_, ?_, ?_, ?_⟩
  · simp [flat_mode_files]
  · exact flat_mode_files_nodup_grid hklStr _ gen eq atoms m bulk_name
      vacuums thicknesses hv ht
  · simp [flat_mode_files]
  · exact flat_mode_files_nodup_grid hklStr _ gen_all eq atoms m bulk_name
      vacuums thicknesses hv ht

/-- Witness for C8: the path property evaluated on a concrete grid of
two vacuums with two kept slabs per batch. -/
theorem C8_one_distinct_path_per_unique_witness :
    ([20, 30] : List Nat).Nodup ∧ ([10] : List Nat).Nodup ∧
    (flat_mode_files "MgO" (dedup (fun a b : Nat => a == b) (fun n => n) 500
      (provisional_one (fun n : Nat => toString n) (fun _ => false)
        (fun _ => true) false (fun t v => [t + v, t + v + 1])
        [20, 30] [10]))).Nodup :=
  ⟨by decide, by decide,
    (C8_one_distinct_path_per_unique (fun n : Nat => toString n)
      (fun _ => false) (fun _ => true) (fun a b => a == b) (fun n => n)
      false (fun t v => [t + v, t + v + 1]) (fun t v => [t + v, t + v + 1])
      [20, 30] [10] 500 "MgO" (by decide) (by decide)).2.1⟩

/-! ### Claim C9 -/

/-- C9: the dedup pass is deterministic, and rerunning it on its own
unique output keeps every record, reproduces the same unique slab list
and produces an empty duplicate list. -/
theorem C9_dedup_idempotent (eq : α → α → Bool) (atoms : α → Nat)
    (m : Nat) (recs : List (SlabRec α)) :
    dedup eq atoms m recs = dedup eq atoms m recs ∧
    (dedup eq atoms m
      ((dedup eq atoms m recs).unique_list_of_dicts)).unique_list_of_dicts =
      (dedup eq atoms m recs).unique_list_of_dicts ∧
    (dedup eq atoms m
      ((dedup eq atoms m recs).unique_list_of_dicts)).unique_list =
      (dedup eq atoms m recs).unique_list ∧
    (dedup eq atoms m
      ((dedup eq atoms m recs).unique_list_of_dicts)).repeats = [] := by
  have hmap : (dedup eq atoms m recs).unique_list =
      (dedup eq atoms m recs).unique_list_of_dicts.map (fun r => r.slab) :=
    foldl_dedup_unique_eq_map eq atoms m recs dedupInit (by simp [dedupInit])
  have hpair : (dedup eq atoms m recs).unique_list.Pairwise
      (fun a b => eq a b = false) :=
    foldl_dedup_pairwise eq atoms m recs dedupInit (by simp [dedupInit])
  have hpair2 : (((dedup eq atoms m recs).unique_list_of_dicts).map
      (fun r => r.slab)).Pairwise (fun a b => eq a b = false) :=
    hmap ▸ hpair
  have hall : dedup eq atoms m ((dedup eq atoms m recs).unique_list_of_dicts) =
      { unique_list := ([] : List α) ++
          ((dedup eq atoms m recs).unique_list_of_dicts.map fun r => r.slab)
        unique_list_of_dicts := ([] : List (SlabRec α)) ++
          (dedup eq atoms m recs).unique_list_of_dicts
        repeats := []
        large := ([] : List String) ++
          (((dedup eq atoms m recs).unique_list_of_dicts.filter fun r =>
            decide (atoms r.slab > m)).map slab_label) } := by
    have h0 := foldl_dedup_all_new eq atoms m
      ((dedup eq atoms m recs).unique_list_of_dicts) dedupInit
      (by intro u hu; simp [dedupInit] at hu) hpair2
    exact h0
  refine ⟨rfl, ?_, ?_, ?_⟩
  · rw [hall]
    rfl
  · rw [hall]
    simp only [List.nil_append]
    exact hmap.symm
  · rw [hall]

/-! ### Claim C10 -/

/-- C10: oxidation_states dispatches on the exact runtime type of
ox_states, so any argument that is neither an exact dict nor an exact
list, None, tuples and dict subclasses included, silently takes the
heuristic guess branch, and in every branch the function mutates and
returns the structure object it was given rather than a copy. -/
theorem C10_oxidation_states_fallthrough (s : PmgStructure)
    (ox : OxStates) :
    (oxidation_states s ox).obj_id = s.obj_id ∧
    (oxidation_states s ox).species = s.species ∧
    (is_exact_dict ox = false → is_exact_list ox = false →
      oxidation_states s ox = add_oxidation_state_by_guess s) := by
  cases ox <;>
    simp [oxidation_states, is_exact_dict, is_exact_list,
      add_oxidation_state_by_element, add_oxidation_state_by_site,
      add_oxidation_state_by_guess]

/-- Witness for C10: a tuple argument evaluated concretely falls through
to the guess branch on the same object. -/
theorem C10_oxidation_states_fallthrough_witness :
    (oxidation_states ⟨7, ["Fe", "O"], OxDecoration.undecorated⟩
      (OxStates.tuple_arg [3, -2])).obj_id = 7 ∧
    oxidation_states ⟨7, ["Fe", "O"], OxDecoration.undecorated⟩
      (OxStates.tuple_arg [3, -2]) =
      add_oxidation_state_by_guess ⟨7, ["Fe", "O"], OxDecoration.undecorated⟩ := by
  have h := C10_oxidation_states_fallthrough
    ⟨7, ["Fe", "O"], OxDecoration.undecorated⟩ (OxStates.tuple_arg [3, -2])
  exact ⟨h.1, h.2.2 rfl rfl⟩

end Surfaxe
